import Mathlib

/-!
Verification development for the AUC Digital Collections Selenium scraper
(`scraper.py`).  The Python class `AUCDigitalCollectionsSeleniumScraper` is
shallowly embedded: Python dictionaries holding extracted metadata become
association lists with insert-or-update semantics, the mutable scraper object
becomes an explicit `CrawlState`, and the network / browser environment (what
each call to `get_entries_from_page` or `extract_description_data` would
observe) becomes an explicit oracle `Env` indexed by call counters, since each
attempt is a fresh network interaction that may behave differently.

Two granularities are modelled, matching the two levels the specification's
claims speak at:
* the crawl layer (retry wrappers, ID assignment, failure bookkeeping,
  multi-page orchestration) treats one extraction attempt as an oracle call;
* the extraction-pipeline layer models `extract_description_data` over an
  abstract rendered page (`PageModel`), including the embedded
  `__INITIAL_STATE__` walk (over a small Python-value type `PyVal`), the
  canonical key table, the fallback-strategy gating, and the image resolver.
-/

/-! ## Python-dict style records

A scraped record is a Python dict mapping field-name strings to string values.
We model it as an association list built only through `setField`, which
mirrors `record[key] = value`: update in place when the key is present
(keeping its position), append otherwise.  `List.length` is then the number
of distinct keys, i.e. Python's `len(record)`. -/

abbrev Record := List (String × String)

/-- Python `key in record`. -/
def hasField (r : Record) (k : String) : Bool :=
  r.any (fun kv => kv.1 == k)

/-- Python `record[key] = value` on a dict. -/
def setField (r : Record) (k v : String) : Record :=
  if hasField r k then r.map (fun kv => if kv.1 == k then (k, v) else kv)
  else r ++ [(k, v)]

/-- The acceptance check `if data and len(data) > 1` used at
`scraper.py:259` (retry wrapper) and in the same form at line 415
(structured-state early return). -/
def acceptCheck (data : Record) : Bool :=
  !data.isEmpty && decide (data.length > 1)

/-! ## String utilities

Python's `pattern in url_lower` substring test and `.startswith('/')`,
modelled over character lists. -/

def isPrefixOfList : List Char → List Char → Bool
  | [], _ => true
  | _ :: _, [] => false
  | a :: as, b :: bs => a == b && isPrefixOfList as bs

def isSubstring (needle : List Char) : List Char → Bool
  | [] => isPrefixOfList needle []
  | c :: rest => isPrefixOfList needle (c :: rest) || isSubstring needle rest

/-- Python `pat in hay` on strings. -/
def strContains (hay pat : String) : Bool :=
  isSubstring pat.toList hay.toList

/-- Python `url.lower()` (ASCII case folding suffices for the URLs
involved), over the character-list model of strings. -/
def lowerStr (s : String) : String :=
  ⟨s.toList.map Char.toLower⟩

/-- Python `src.startswith('/')`. -/
def startsWithSlash (s : String) : Bool :=
  match s.toList with
  | [] => false
  | c :: _ => c == '/'

/-- `BASE_URL` from `scraper.py:20`. -/
def BASE_URL : String := "https://digitalcollections.aucegypt.edu"

/-! ## Image resolver (`is_valid_image_url`, `extract_image_url`) -/

/-- `skip_patterns` from `scraper.py:225`. -/
def skip_patterns : List String :=
  ["logo", "icon", "favicon", "button", "arrow", "bg_", "background",
   "sprite", "thumb_", "avatar", "profile"]

/-- `image_indicators` from `scraper.py:237`. -/
def image_indicators : List String :=
  ["iiif", "digital", "collection", "item", "full", "image",
   ".jpg", ".jpeg", ".png", ".gif", ".webp", ".tiff"]

/-- `is_valid_image_url` (`scraper.py:219`): reject falsy URLs, reject any
URL whose lowercase form contains a skip pattern, then require at least one
image indicator.  The falsy case (`if not url`) is modelled by the empty
string. -/
def is_valid_image_url (url : String) : Bool :=
  if url == "" then false
  else if skip_patterns.any (fun pat => strContains (lowerStr url) pat) then false
  else image_indicators.any (fun ind => strContains (lowerStr url) ind)

/-- The relative-URL resolution in `extract_image_url`
(`scraper.py:191`): `if src.startswith('/'): src = BASE_URL + src`. -/
def resolveSrc (src : String) : String :=
  if startsWithSlash src then BASE_URL ++ src else src

/-- `extract_image_url` (`scraper.py:169`) modelled over the list of
candidate `src` attributes the page's image elements expose, in selector
order: the first candidate passing `is_valid_image_url` is resolved and
returned.  (The second pass over all images additionally filters by rendered
size; its candidates are part of the same list, the size filter being part of
what the environment chose to expose.) -/
def extract_image_url (cands : List String) : Option String :=
  (cands.find? (fun s => is_valid_image_url s)).map resolveSrc

/-! ## Embedded `__INITIAL_STATE__` values

`extract_initial_state` (`scraper.py:155`) regex-matches the serialized
application state and runs `json.loads` on it inside a `try/except` that
returns `{}` on any failure.  We model the parsed value with a small
Python-value type (string leaves, dicts, lists; the site's metadata values
are strings). -/

inductive PyVal where
  | vstr : String → PyVal
  | vdict : List (String × PyVal) → PyVal
  | vlist : List PyVal → PyVal

/-- Python truthiness for the values above (empty string/dict/list are
falsy). -/
def pyTruthy : PyVal → Bool
  | .vstr s => !(s == "")
  | .vdict l => !l.isEmpty
  | .vlist l => !l.isEmpty

/-- Python `d[k]` on a dict (`none` when the key is missing or the value is
not a dict). -/
def pyGet (v : PyVal) (k : String) : Option PyVal :=
  match v with
  | .vdict l => (l.find? (fun kv => kv.1 == k)).map (fun kv => kv.2)
  | _ => none

/-- Python `k in d` for a dict. -/
def pyHas (v : PyVal) (k : String) : Bool :=
  (pyGet v k).isSome

/-- The canonical key table: the `elif` chain at `scraper.py:371`-`408`
mapping raw field codes to human labels, with unrecognized codes passed
through verbatim (`else: record[key] = value`). -/
def canonicalKey (k : String) : String :=
  if k == "title" then "Title"
  else if k == "titlea" then "Title (Arabic)"
  else if k == "creato" then "Creator"
  else if k == "creata" then "Creator (Arabic)"
  else if k == "publis" then "Publisher"
  else if k == "date" then "Date"
  else if k == "notes" then "Notes"
  else if k == "covera" then "Location"
  else if k == "descri" then "Description"
  else if k == "subjec" then "Subject"
  else if k == "type" then "Type"
  else if k == "audien" then "Genre (AAT)"
  else if k == "langua" then "Language"
  else if k == "contri" then "Collection"
  else if k == "source" then "Source"
  else if k == "rights" then "Rights"
  else if k == "format" then "Call number"
  else if k == "relati" then "Link to catalogue"
  else k

/-- The nested access of `extract_description_data` (`scraper.py:360`-`363`):
`if initial_state and 'item' in initial_state`, then
`if item_data and 'item' in item_data and 'parent' in item_data['item']`,
yielding `parent = item_data['item']['parent']`; `none` when any check
fails (the code then falls through to the DOM strategies). -/
def parentOfState (initial_state : PyVal) : Option PyVal :=
  if pyTruthy initial_state && pyHas initial_state "item" then
    match pyGet initial_state "item" with
    | some item_data =>
      if pyTruthy item_data && pyHas item_data "item" then
        match pyGet item_data "item" with
        | some inner => if pyHas inner "parent" then pyGet inner "parent" else none
        | none => none
      else none
    | none => none
  else none

/-- One field entry of `parent['fields']`: recorded when
`field and 'key' in field and 'value' in field` holds and key and value are
strings (`scraper.py:367`-`408`), through the canonical key table. -/
def addFieldEntry (r : Record) (f : PyVal) : Record :=
  if pyTruthy f && pyHas f "key" && pyHas f "value" then
    match pyGet f "key", pyGet f "value" with
    | some (.vstr k), some (.vstr v) => setField r (canonicalKey k) v
    | _, _ => r
  else r

/-- The record built from the structured state's parent fields
(`scraper.py:364`-`408`): `record = {}`, then
`if parent and 'fields' in parent: for field in parent['fields']: ...`. -/
def fieldsRecord (parent : PyVal) : Record :=
  if pyTruthy parent && pyHas parent "fields" then
    match pyGet parent "fields" with
    | some (.vlist fs) => fs.foldl addFieldEntry []
    | _ => []
  else []

/-! ## The extraction pipeline over an abstract rendered page

`PageModel` records what the rendered detail page would give each strategy:
the parsed `__INITIAL_STATE__` blob (`none` models both an absent
`window.__INITIAL_STATE__` assignment and one whose JSON fails to parse —
the `except` at `scraper.py:165` returns `{}` for both), the field pairs the
Item-Description section parse (`scraper.py:427`-`529`), the Object-
Description text (`scraper.py:531`-`550`), the pattern-match candidates
(`scraper.py:555`-`597`) and the DOM-container pairs (`scraper.py:599`-`638`)
would yield, and the candidate image sources.  The line-level parsing inside
strategies 2-4 is abstracted to its resulting field pairs; the merge and
gating logic between strategies is modelled exactly. -/

structure PageModel where
  loads : Bool
  initialState : Option PyVal
  s2ItemDesc : Record
  objDesc : Option String
  s3Fields : List (String × String)
  s4Pairs : List (String × String)
  imageCands : List String

/-- `extract_initial_state` (`scraper.py:155`): the parsed state dict, or
`{}` when the blob is absent or `json.loads` raises. -/
def extract_initial_state (p : PageModel) : PyVal :=
  match p.initialState with
  | some v => v
  | none => PyVal.vdict []

/-- The `image_url = self.extract_image_url(); if image_url: record['Image
URL'] = image_url` step (`scraper.py:410`-`413` and `640`-`643`). -/
def mergeImage (r : Record) (p : PageModel) : Record :=
  match extract_image_url p.imageCands with
  | some u => setField r "Image URL" u
  | none => r

/-- The Object-Description sub-step of the section heuristic
(`scraper.py:531`-`550`): when a description text longer than 10 characters
is found, `record['Description'] = desc_text`. -/
def objStep (p : PageModel) (r : Record) : Record :=
  match p.objDesc with
  | some t => if 10 < t.length then setField r "Description" t else r
  | none => r

/-- Cumulative record after the section-heuristic strategy: the
Item-Description parse result, then — only when `len(record) < 3`
(`scraper.py:532`) — the Object-Description sub-step. -/
def rec2 (p : PageModel) : Record :=
  let r := p.s2ItemDesc
  if r.length < 3 then objStep p r else r

/-- The pattern-match merge (`scraper.py:577`-`591`): a field is added only
when `field_name not in record`. -/
def mergePattern (r : Record) (fs : List (String × String)) : Record :=
  fs.foldl (fun acc kv => if hasField acc kv.1 then acc else setField acc kv.1 kv.2) r

/-- The generic-DOM merge (`scraper.py:605`-`632`): `record[key] = value`. -/
def mergeDom (r : Record) (fs : List (String × String)) : Record :=
  fs.foldl (fun acc kv => setField acc kv.1 kv.2) r

/-- Cumulative record after the pattern-match strategy, which runs only when
`len(record) < 3` (`scraper.py:556`). -/
def rec3 (p : PageModel) : Record :=
  let r := rec2 p
  if r.length < 3 then mergePattern r p.s3Fields else r

/-- Cumulative record after the generic-DOM strategy, which runs only when
`len(record) < 3` (`scraper.py:600`). -/
def rec4 (p : PageModel) : Record :=
  let r := rec3 p
  if r.length < 3 then mergeDom r p.s4Pairs else r

/-- The full fallback-path record (`scraper.py:423`-`647`): strategies 2-4
followed by the unconditional image merge at line 640. -/
def fallbackRecord (p : PageModel) : Record :=
  mergeImage (rec4 p) p

/-- The extraction strategies of the pipeline, for the invocation log. -/
inductive Strategy where
  | structuredState
  | sectionHeuristic
  | patternMatch
  | genericDOM
  | imageResolver
deriving DecidableEq, Repr

/-- Invocation log of the fallback path: the section heuristic always runs,
the pattern-match and generic-DOM strategies only under their `len < 3`
gates, and the image resolver at the end. -/
def fallbackLog (p : PageModel) : List Strategy :=
  [Strategy.sectionHeuristic]
    ++ (if (rec2 p).length < 3 then [Strategy.patternMatch] else [])
    ++ (if (rec3 p).length < 3 then [Strategy.genericDOM] else [])
    ++ [Strategy.imageResolver]

/-- `extract_description_data` (`scraper.py:351`-`653`) with an instrumented
invocation log.  A page that fails `wait_for_page_load` returns `{}` before
any strategy runs (line 356).  When the structured-state path exists, its
record is merged with the image result and returned if it passes the
`record and len(record) > 1` check (line 415); otherwise the code falls
through to the DOM strategies with a fresh `record = {}` (line 425),
discarding the structured partial result. -/
def extract_description_data (p : PageModel) : Record × List Strategy :=
  if p.loads then
    match parentOfState (extract_initial_state p) with
    | some parent =>
      let record := mergeImage (fieldsRecord parent) p
      if acceptCheck record then
        (record, [Strategy.structuredState, Strategy.imageResolver])
      else
        (fallbackRecord p, Strategy.structuredState :: Strategy.imageResolver :: fallbackLog p)
    | none => (fallbackRecord p, Strategy.structuredState :: fallbackLog p)
  else ([], [])

/-! ## The crawl layer

The mutable scraper object becomes `CrawlState`.  `htick` and `etick` count
the calls made so far to `get_entries_from_page` and
`extract_description_data` respectively; the environment `Env` says what
each such call observes (an attempt that raises inside the wrapped call
behaves exactly like one returning an empty result, since both fall to the
retry arm, so a raising attempt is modelled by an unacceptable record).
`Entry.url` records, as ghost provenance, which entry URL an accepted record
was extracted from: the Python dict does not store it, but it is determined
by the loop, and the specification states its invariants in terms of it. -/

structure FailureRecord where
  url : String
  attempts : Nat
deriving DecidableEq, Repr

structure Entry where
  id : Nat
  url : String
  fields : Record
deriving DecidableEq, Repr

structure CrawlState where
  all_data : List Entry
  failed_entries : List FailureRecord
  current_id : Nat
  htick : Nat
  etick : Nat
deriving DecidableEq, Repr

/-- `__init__` (`scraper.py:42`-`44`): `all_data = []`,
`failed_entries = []`, `current_id = 1`. -/
def initState : CrawlState := ⟨[], [], 1, 0, 0⟩

structure Env where
  pageLinks : Nat → Nat → List String
  extractResult : String → Nat → Record

/-- `add_id_to_entry` (`scraper.py:62`-`67`): a truthy entry gets
`entry_data['id'] = current_id` (here: the `id` field of the produced
`Entry`) and the counter is incremented; a falsy one is returned unchanged.
The entry URL is threaded through as ghost provenance. -/
def add_id_to_entry (st : CrawlState) (u : String) (entry_data : Record) :
    Option Entry × CrawlState :=
  if entry_data.isEmpty then (none, st)
  else (some ⟨st.current_id, u, entry_data⟩, { st with current_id := st.current_id + 1 })

/-- The attempt loop of `retry_extract_description_data`
(`scraper.py:251`-`272`): up to the given number of attempts, each calling
`extract_description_data` (one `etick`) and succeeding when
`data and len(data) > 1`. -/
def retryAttempts (env : Env) (u : String) : Nat → CrawlState → Option Record × CrawlState
  | 0, st => (none, st)
  | n + 1, st =>
    let data := env.extractResult u st.etick
    let st1 : CrawlState := { st with etick := st.etick + 1 }
    if acceptCheck data then (some data, st1) else retryAttempts env u n st1

/-- `retry_extract_description_data` (`scraper.py:244`-`281`): `max_retries
+ 1` attempts; on exhaustion append one failure entry
`{'url': entry_url, 'attempts': max_retries + 1}` and return `{}`.
(The `timestamp` field of the Python dict records wall-clock time and is not
modelled.) -/
def retry_extract_description_data (env : Env) (u : String) (mr : Nat) (st : CrawlState) :
    Record × CrawlState :=
  match retryAttempts env u (mr + 1) st with
  | (some data, st1) => (data, st1)
  | (none, st1) =>
    ([], { st1 with failed_entries := st1.failed_entries ++ [⟨u, mr + 1⟩] })

/-- The per-page deduplication of `get_entries_from_page`
(`scraper.py:100`-`117`): `if href not in entry_links:
entry_links.append(href)`. -/
def dedupKeepFirst (l : List String) : List String :=
  l.foldl (fun acc h => if acc.contains h then acc else acc ++ [h]) []

/-- `get_entries_from_page` (`scraper.py:78`-`122`): the hrefs the rendered
listing page exposes at this point in time (already filtered by the
selector/path conditions, which the environment models), deduplicated
preserving first-seen order.  A page that times out yields `[]`. -/
def get_entries_from_page (env : Env) (p t : Nat) : List String :=
  dedupKeepFirst (env.pageLinks p t)

/-- The attempt loop of `retry_get_entries_from_page`
(`scraper.py:131`-`151`): succeed on a non-empty link list. -/
def retryHarvest (env : Env) (p : Nat) : Nat → Nat → List String × Nat
  | 0, t => ([], t)
  | n + 1, t =>
    let links := get_entries_from_page env p t
    if links.isEmpty then retryHarvest env p n (t + 1) else (links, t + 1)

/-- `retry_get_entries_from_page` (`scraper.py:124`-`153`): `max_retries +
1` attempts; on exhaustion it prints and returns `[]` — note that, unlike
the extraction wrapper, it never touches `failed_entries` (it neither takes
nor returns the failure list). -/
def retry_get_entries_from_page (env : Env) (p mr t : Nat) : List String × Nat :=
  retryHarvest env p (mr + 1) t

/-- One iteration of the per-entry loop of `scrape_multiple_pages`
(`scraper.py:791`-`809`): extract with retries; `if entry_data:` assign an
ID and append to `all_data`. -/
def processEntry (env : Env) (mr : Nat) (st : CrawlState) (u : String) : CrawlState :=
  if (retry_extract_description_data env u mr st).1.isEmpty then
    (retry_extract_description_data env u mr st).2
  else
    match add_id_to_entry (retry_extract_description_data env u mr st).2 u
        (retry_extract_description_data env u mr st).1 with
    | (some e, st2) => { st2 with all_data := st2.all_data ++ [e] }
    | (none, st2) => st2

def processEntries (env : Env) (mr : Nat) (st : CrawlState) (urls : List String) : CrawlState :=
  urls.foldl (processEntry env mr) st

/-- The per-page record cap (`scraper.py:784`-`786`): applied only when
`records_per_page is not None and records_per_page > 0`. -/
def capUrls (rpp : Option Nat) (urls : List String) : List String :=
  match rpp with
  | some c => if 0 < c then urls.take c else urls
  | none => urls

/-- One page of `scrape_multiple_pages` (`scraper.py:774`-`809`): harvest
with retries, cap, then process each entry URL. -/
def scrapePage (env : Env) (mr : Nat) (rpp : Option Nat) (st : CrawlState) (p : Nat) :
    CrawlState :=
  match retry_get_entries_from_page env p mr st.htick with
  | (links, t2) => processEntries env mr { st with htick := t2 } (capUrls rpp links)

/-- Python `range(start_page, end_page + 1)`. -/
def pageRange (sp ep : Nat) : List Nat := List.range' sp (ep + 1 - sp)

/-- `scrape_multiple_pages` (`scraper.py:760`-`835`). -/
def scrape_multiple_pages (env : Env) (mr : Nat) (rpp : Option Nat) (sp ep : Nat)
    (st : CrawlState) : CrawlState :=
  (pageRange sp ep).foldl (scrapePage env mr rpp) st

/-- The URL sequence a run submits to extraction, page by page: determined
by the environment alone, since harvesting advances only `htick` and
extraction never touches it. -/
def runUrls (env : Env) (mr : Nat) (rpp : Option Nat) : List Nat → Nat → List String
  | [], _ => []
  | p :: ps, t =>
    match retry_get_entries_from_page env p mr t with
    | (links, t2) => capUrls rpp links ++ runUrls env mr rpp ps t2

/-- Result of `retry_failed_entries`: the `successful_retries` counter, the
`still_failed` list, and the scraper state. -/
structure RetryOutcome where
  successful : Nat
  still_failed : List FailureRecord
  state : CrawlState
deriving DecidableEq, Repr

/-- One iteration of `retry_failed_entries` (`scraper.py:294`-`311`):
re-extract the failed entry's URL; on success assign an ID (from this
session's own counter) and append to `all_data`, otherwise keep the entry in
`still_failed`. -/
def retryFailedStep (env : Env) (mr : Nat) (o : RetryOutcome) (f : FailureRecord) :
    RetryOutcome :=
  if (retry_extract_description_data env f.url mr o.state).1.isEmpty then
    ⟨o.successful, o.still_failed ++ [f], (retry_extract_description_data env f.url mr o.state).2⟩
  else
    match add_id_to_entry (retry_extract_description_data env f.url mr o.state).2 f.url
        (retry_extract_description_data env f.url mr o.state).1 with
    | (some e, st2) =>
      ⟨o.successful + 1, o.still_failed, { st2 with all_data := st2.all_data ++ [e] }⟩
    | (none, st2) => ⟨o.successful + 1, o.still_failed, st2⟩

/-- `retry_failed_entries` (`scraper.py:283`-`329`) on an already-parsed
failure list. -/
def retry_failed_entries (env : Env) (mr : Nat) (fl : List FailureRecord)
    (st : CrawlState) : RetryOutcome :=
  fl.foldl (retryFailedStep env mr) ⟨0, [], st⟩

/-! ## Helper lemmas -/

theorem acceptCheck_iff (d : Record) : acceptCheck d = true ↔ 2 ≤ d.length := by
  cases d with
  | nil => simp [acceptCheck]
  | cons a l =>
    simp only [acceptCheck, List.isEmpty_cons, Bool.not_false, Bool.true_and,
      decide_eq_true_eq, List.length_cons]
    omega

theorem acceptCheck_not_isEmpty (d : Record) (h : acceptCheck d = true) :
    d.isEmpty = false := by
  cases d with
  | nil => simp [acceptCheck] at h
  | cons a l => simp

theorem retryAttempts_proj (env : Env) (u : String) (n : Nat) :
    ∀ st : CrawlState,
      (retryAttempts env u n st).2.all_data = st.all_data ∧
      (retryAttempts env u n st).2.current_id = st.current_id ∧
      (retryAttempts env u n st).2.htick = st.htick ∧
      (retryAttempts env u n st).2.failed_entries = st.failed_entries := by
  induction n with
  | zero => intro st; simp [retryAttempts]
  | succ n ih =>
    intro st
    simp only [retryAttempts]
    split
    · simp
    · simpa using ih { st with etick := st.etick + 1 }

theorem retryAttempts_some_acc (env : Env) (u : String) (n : Nat) :
    ∀ (st st1 : CrawlState) (d : Record),
      retryAttempts env u n st = (some d, st1) → acceptCheck d = true := by
  induction n with
  | zero => intro st st1 d h; simp [retryAttempts] at h
  | succ n ih =>
    intro st st1 d h
    simp only [retryAttempts] at h
    split at h
    · simp only [Prod.mk.injEq, Option.some.inj] at h
      obtain ⟨h1, h2⟩ := h
      cases h1
      assumption
    · exact ih _ _ _ h

theorem retry_extract_spec (env : Env) (u : String) (mr : Nat) (st : CrawlState) :
    (retry_extract_description_data env u mr st).2.all_data = st.all_data ∧
    (retry_extract_description_data env u mr st).2.current_id = st.current_id ∧
    (retry_extract_description_data env u mr st).2.htick = st.htick ∧
    ((acceptCheck (retry_extract_description_data env u mr st).1 = true ∧
      (retry_extract_description_data env u mr st).2.failed_entries = st.failed_entries) ∨
     ((retry_extract_description_data env u mr st).1 = [] ∧
      (retry_extract_description_data env u mr st).2.failed_entries =
        st.failed_entries ++ [⟨u, mr + 1⟩])) := by
  have hp := retryAttempts_proj env u (mr + 1) st
  unfold retry_extract_description_data
  cases h : retryAttempts env u (mr + 1) st with
  | mk o st1 =>
    rw [h] at hp
    have hpa : st1.all_data = st.all_data := hp.1
    have hpc : st1.current_id = st.current_id := hp.2.1
    have hph : st1.htick = st.htick := hp.2.2.1
    have hpf : st1.failed_entries = st.failed_entries := hp.2.2.2
    cases o with
    | some d =>
      have hacc := retryAttempts_some_acc env u (mr + 1) st st1 d h
      exact ⟨hpa, hpc, hph, Or.inl ⟨hacc, hpf⟩⟩
    | none =>
      refine ⟨hpa, hpc, hph, Or.inr ⟨rfl, ?_⟩⟩
      show st1.failed_entries ++ [⟨u, mr + 1⟩] = st.failed_entries ++ [⟨u, mr + 1⟩]
      rw [hpf]

theorem add_id_to_entry_ne (st : CrawlState) (u : String) (d : Record)
    (h : d.isEmpty = false) :
    add_id_to_entry st u d =
      (some ⟨st.current_id, u, d⟩, { st with current_id := st.current_id + 1 }) := by
  unfold add_id_to_entry
  rw [h]
  simp

theorem processEntry_spec (env : Env) (mr : Nat) (st : CrawlState) (u : String) :
    (processEntry env mr st u).htick = st.htick ∧
    ((∃ d, acceptCheck d = true ∧
        (processEntry env mr st u).all_data = st.all_data ++ [⟨st.current_id, u, d⟩] ∧
        (processEntry env mr st u).current_id = st.current_id + 1 ∧
        (processEntry env mr st u).failed_entries = st.failed_entries) ∨
     ((processEntry env mr st u).all_data = st.all_data ∧
      (processEntry env mr st u).current_id = st.current_id ∧
      (processEntry env mr st u).failed_entries = st.failed_entries ++ [⟨u, mr + 1⟩])) := by
  obtain ⟨ha, hc, hh, hcase⟩ := retry_extract_spec env u mr st
  rcases hcase with ⟨hacc, hf⟩ | ⟨hnil, hf⟩
  · have hne := acceptCheck_not_isEmpty _ hacc
    have heq : processEntry env mr st u =
        { all_data := (retry_extract_description_data env u mr st).2.all_data ++
            [⟨(retry_extract_description_data env u mr st).2.current_id, u,
              (retry_extract_description_data env u mr st).1⟩],
          failed_entries := (retry_extract_description_data env u mr st).2.failed_entries,
          current_id := (retry_extract_description_data env u mr st).2.current_id + 1,
          htick := (retry_extract_description_data env u mr st).2.htick,
          etick := (retry_extract_description_data env u mr st).2.etick } := by
      unfold processEntry
      rw [hne, add_id_to_entry_ne _ u _ hne]
      rfl
    rw [heq]
    refine ⟨hh, Or.inl ⟨(retry_extract_description_data env u mr st).1, hacc, ?_, ?_, hf⟩⟩
    · show (retry_extract_description_data env u mr st).2.all_data ++
        [⟨(retry_extract_description_data env u mr st).2.current_id, u,
          (retry_extract_description_data env u mr st).1⟩] =
        st.all_data ++ [⟨st.current_id, u, (retry_extract_description_data env u mr st).1⟩]
      rw [ha, hc]
    · show (retry_extract_description_data env u mr st).2.current_id + 1 = st.current_id + 1
      rw [hc]
  · have heq : processEntry env mr st u = (retry_extract_description_data env u mr st).2 := by
      unfold processEntry
      rw [hnil]
      rfl
    rw [heq]
    exact ⟨hh, Or.inr ⟨ha, hc, hf⟩⟩

/-! ## The ID-assignment invariant -/

/-- The session's ID discipline: the accepted records carry the gap-free IDs
`1, 2, ..., k` in acceptance order, and the counter sits at `k + 1`. -/
def idInv (st : CrawlState) : Prop :=
  st.all_data.map Entry.id = List.range' 1 st.all_data.length ∧
  st.current_id = st.all_data.length + 1

theorem range'_one_snoc (n : Nat) :
    List.range' 1 (n + 1) = List.range' 1 n ++ [n + 1] := by
  have h : List.range' 1 (n + 1) = List.range' 1 n ++ [1 + 1 * n] := List.range'_concat 1 n
  simpa [Nat.add_comm] using h

theorem idInv_processEntry (env : Env) (mr : Nat) (u : String) (st : CrawlState)
    (h : idInv st) : idInv (processEntry env mr st u) := by
  obtain ⟨hmap, hcid⟩ := h
  obtain ⟨_, hcase⟩ := processEntry_spec env mr st u
  rcases hcase with ⟨d, _, ha, hc, _⟩ | ⟨ha, hc, _⟩
  · constructor
    · rw [ha, List.map_append, hmap, List.length_append]
      simp only [List.map_cons, List.map_nil, List.length_cons, List.length_nil]
      rw [hcid, range'_one_snoc]
    · rw [hc, ha, List.length_append, hcid]
      simp
  · constructor
    · rw [ha, hmap]
    · rw [hc, ha, hcid]

theorem idInv_processEntries (env : Env) (mr : Nat) :
    ∀ (urls : List String) (st : CrawlState),
      idInv st → idInv (processEntries env mr st urls) := by
  intro urls
  induction urls with
  | nil => intro st h; exact h
  | cons u us ih => intro st h; exact ih _ (idInv_processEntry env mr u st h)

theorem idInv_htick (st : CrawlState) (t : Nat) (h : idInv st) :
    idInv { st with htick := t } := h

theorem idInv_scrapePage (env : Env) (mr : Nat) (rpp : Option Nat) (st : CrawlState)
    (p : Nat) (h : idInv st) : idInv (scrapePage env mr rpp st p) := by
  unfold scrapePage
  cases hh : retry_get_entries_from_page env p mr st.htick with
  | mk links t2 => exact idInv_processEntries env mr _ _ (idInv_htick st t2 h)

theorem idInv_foldPages (env : Env) (mr : Nat) (rpp : Option Nat) :
    ∀ (pages : List Nat) (st : CrawlState),
      idInv st → idInv (pages.foldl (scrapePage env mr rpp) st) := by
  intro pages
  induction pages with
  | nil => intro st h; exact h
  | cons p ps ih => intro st h; exact ih _ (idInv_scrapePage env mr rpp st p h)

theorem idInv_initState : idInv initState := by
  constructor <;> rfl

/-- C1: For every crawl session, the ID counter starts at 1 and IDs are
assigned only when an extraction result is accepted (non-empty record
passing the acceptance check): the k-th accepted EntryRecord in a run
receives id k, so accepted IDs are strictly increasing consecutive integers
1, 2, 3, ... with no gaps, and a URL whose extraction fails never consumes
an ID.  Formally: a fresh session's counter is 1, and after any
`scrape_multiple_pages` run over any environment, page range, retry bound
and per-page cap, the accepted records' IDs in order are exactly
`1, 2, ..., k` for `k` accepted records, with the counter at `k + 1`
(failed URLs, which add no record, advance nothing). -/
theorem C1_gapfree_ids (env : Env) (mr : Nat) (rpp : Option Nat) (sp ep : Nat) :
    initState.current_id = 1 ∧
    (scrape_multiple_pages env mr rpp sp ep initState).all_data.map Entry.id =
      List.range' 1 (scrape_multiple_pages env mr rpp sp ep initState).all_data.length ∧
    (scrape_multiple_pages env mr rpp sp ep initState).current_id =
      (scrape_multiple_pages env mr rpp sp ep initState).all_data.length + 1 := by
  have h := idInv_foldPages env mr rpp (pageRange sp ep) initState idInv_initState
  exact ⟨rfl, h.1, h.2⟩

theorem retryFailedStep_state (env : Env) (mr : Nat) (o : RetryOutcome) (f : FailureRecord) :
    (∃ d, acceptCheck d = true ∧
        (retryFailedStep env mr o f).state.all_data =
          o.state.all_data ++ [⟨o.state.current_id, f.url, d⟩] ∧
        (retryFailedStep env mr o f).state.current_id = o.state.current_id + 1) ∨
    ((retryFailedStep env mr o f).state.all_data = o.state.all_data ∧
     (retryFailedStep env mr o f).state.current_id = o.state.current_id) := by
  obtain ⟨ha, hc, hh, hcase⟩ := retry_extract_spec env f.url mr o.state
  rcases hcase with ⟨hacc, hf⟩ | ⟨hnil, hf⟩
  · have hne := acceptCheck_not_isEmpty _ hacc
    have heq : (retryFailedStep env mr o f).state =
        { all_data := (retry_extract_description_data env f.url mr o.state).2.all_data ++
            [⟨(retry_extract_description_data env f.url mr o.state).2.current_id, f.url,
              (retry_extract_description_data env f.url mr o.state).1⟩],
          failed_entries := (retry_extract_description_data env f.url mr o.state).2.failed_entries,
          current_id := (retry_extract_description_data env f.url mr o.state).2.current_id + 1,
          htick := (retry_extract_description_data env f.url mr o.state).2.htick,
          etick := (retry_extract_description_data env f.url mr o.state).2.etick } := by
      unfold retryFailedStep
      rw [hne, add_id_to_entry_ne _ f.url _ hne]
      rfl
    rw [heq]
    refine Or.inl ⟨(retry_extract_description_data env f.url mr o.state).1, hacc, ?_, ?_⟩
    · show (retry_extract_description_data env f.url mr o.state).2.all_data ++
        [⟨(retry_extract_description_data env f.url mr o.state).2.current_id, f.url,
          (retry_extract_description_data env f.url mr o.state).1⟩] =
        o.state.all_data ++ [⟨o.state.current_id, f.url,
          (retry_extract_description_data env f.url mr o.state).1⟩]
      rw [ha, hc]
    · show (retry_extract_description_data env f.url mr o.state).2.current_id + 1 =
        o.state.current_id + 1
      rw [hc]
  · have heq : (retryFailedStep env mr o f).state =
        (retry_extract_description_data env f.url mr o.state).2 := by
      unfold retryFailedStep
      rw [hnil]
      rfl
    rw [heq]
    exact Or.inr ⟨ha, hc⟩

theorem idInv_retryFailedStep (env : Env) (mr : Nat) (o : RetryOutcome) (f : FailureRecord)
    (h : idInv o.state) : idInv (retryFailedStep env mr o f).state := by
  obtain ⟨hmap, hcid⟩ := h
  rcases retryFailedStep_state env mr o f with ⟨d, _, ha, hc⟩ | ⟨ha, hc⟩
  · constructor
    · rw [ha, List.map_append, hmap, List.length_append]
      simp only [List.map_cons, List.map_nil, List.length_cons, List.length_nil]
      rw [hcid, range'_one_snoc]
    · rw [hc, ha, List.length_append, hcid]
      simp
  · constructor
    · rw [ha, hmap]
    · rw [hc, ha, hcid]

theorem idInv_retryFold (env : Env) (mr : Nat) :
    ∀ (fl : List FailureRecord) (o : RetryOutcome),
      idInv o.state → idInv (fl.foldl (retryFailedStep env mr) o).state := by
  intro fl
  induction fl with
  | nil => intro o h; exact h
  | cons f fs ih => intro o h; exact ih _ (idInv_retryFailedStep env mr o f h)

/-- C10: In retry-from-failure-file mode, accepted records are numbered by
the session's own fresh counter: a fresh scraper instance starts its counter
at 1, and after `retry_failed_entries` runs on any failure list over any
environment, the accepted (successfully retried) records carry the
consecutive IDs `1, 2, ..., k` in order — independent of whatever IDs the
original run persisted, so retried records' IDs can collide with IDs in the
original output file. -/
theorem C10_retry_fresh_ids (env : Env) (mr : Nat) (fl : List FailureRecord) :
    initState.current_id = 1 ∧
    (retry_failed_entries env mr fl initState).state.all_data.map Entry.id =
      List.range' 1 (retry_failed_entries env mr fl initState).state.all_data.length ∧
    (retry_failed_entries env mr fl initState).state.current_id =
      (retry_failed_entries env mr fl initState).state.all_data.length + 1 := by
  have h := idInv_retryFold env mr fl ⟨0, [], initState⟩ idInv_initState
  exact ⟨rfl, h.1, h.2⟩

/-! ## Exhausted-retry behaviour -/

theorem retryAttempts_allFail (env : Env) (u : String)
    (hfail : ∀ k, acceptCheck (env.extractResult u k) = false) :
    ∀ (n : Nat) (st : CrawlState),
      retryAttempts env u n st = (none, { st with etick := st.etick + n }) := by
  intro n
  induction n with
  | zero => intro st; simp [retryAttempts]
  | succ n ih =>
    intro st
    have harith : st.etick + 1 + n = st.etick + (n + 1) := by omega
    simp only [retryAttempts, hfail, Bool.false_eq_true, if_false]
    rw [ih { st with etick := st.etick + 1 }]
    simp [harith]

theorem retry_extract_allFail (env : Env) (u : String) (mr : Nat) (st : CrawlState)
    (hfail : ∀ k, acceptCheck (env.extractResult u k) = false) :
    retry_extract_description_data env u mr st =
      ([], { st with
               etick := st.etick + (mr + 1),
               failed_entries := st.failed_entries ++ [⟨u, mr + 1⟩] }) := by
  unfold retry_extract_description_data
  rw [retryAttempts_allFail env u hfail (mr + 1) st]

theorem retryHarvest_allEmpty (env : Env) (p : Nat)
    (hempty : ∀ k, env.pageLinks p k = []) :
    ∀ (n t : Nat), retryHarvest env p n t = ([], t + n) := by
  intro n
  induction n with
  | zero => intro t; simp [retryHarvest]
  | succ n ih =>
    intro t
    simp only [retryHarvest, get_entries_from_page, hempty]
    rw [show dedupKeepFirst [] = [] from rfl]
    simp only [List.isEmpty_nil, if_true]
    rw [ih (t + 1)]
    simp
    omega

theorem capUrls_nil (rpp : Option Nat) : capUrls rpp [] = [] := by
  cases rpp with
  | none => rfl
  | some c => simp [capUrls]

/-- C3: For every URL whose extraction fails on all `maxRetries + 1`
consecutive attempts, after the retry wrapper returns the URL appears
exactly once in the failure list (given it was not already there), its
FailureRecord's `attempts` field equals `maxRetries + 1`, and the URL
contributes zero records to the accepted EntryRecord output (`all_data` is
unchanged and the wrapper returns `{}`, so the caller appends nothing). -/
theorem C3_exhausted_exactly_once (env : Env) (u : String) (mr : Nat) (st : CrawlState)
    (hfail : ∀ k, acceptCheck (env.extractResult u k) = false)
    (hfresh : u ∉ st.failed_entries.map FailureRecord.url) :
    (retry_extract_description_data env u mr st).1 = [] ∧
    (retry_extract_description_data env u mr st).2.failed_entries.filter
      (fun f => f.url == u) = [⟨u, mr + 1⟩] ∧
    (retry_extract_description_data env u mr st).2.all_data = st.all_data := by
  rw [retry_extract_allFail env u mr st hfail]
  refine ⟨rfl, ?_, rfl⟩
  show (st.failed_entries ++ [(⟨u, mr + 1⟩ : FailureRecord)]).filter
    (fun f => f.url == u) = [⟨u, mr + 1⟩]
  rw [List.filter_append]
  have h1 : st.failed_entries.filter (fun f => f.url == u) = [] := by
    rw [List.filter_eq_nil_iff]
    intro f hf hbeq
    exact hfresh (List.mem_map.mpr ⟨f, hf, by simpa using hbeq⟩)
  rw [h1]
  simp

/-- The environment in which every harvest yields no links and every
extraction attempt yields an empty record. -/
def envNull : Env := ⟨fun _ _ => [], fun _ _ => []⟩

/-- C3 witness: concrete exhausted run with `maxRetries = 3`. -/
theorem C3_exhausted_exactly_once_witness :
    (retry_extract_description_data envNull "x" 3 initState).1 = [] ∧
    (retry_extract_description_data envNull "x" 3 initState).2.failed_entries.filter
      (fun f => f.url == "x") = [⟨"x", 4⟩] ∧
    (retry_extract_description_data envNull "x" 3 initState).2.all_data =
      initState.all_data :=
  C3_exhausted_exactly_once envNull "x" 3 initState (fun _ => rfl) (by simp [initState])

/-- C2 counterexample: with an environment in which page 1 never yields
links, `scrape_multiple_pages` over the single page 1 exhausts the harvest
wrapper's `maxRetries + 1` attempts, yet the session's failure list stays
empty — no FailureRecord is appended for the page, contradicting the claim
that the wrapper emits exactly one FailureRecord for the page on
exhaustion, identically to per-entry extraction. -/
theorem C2_cex_harvest_appends_nothing :
    (retry_get_entries_from_page envNull 1 3 0).1 = [] ∧
    (scrape_multiple_pages envNull 3 none 1 1 initState).failed_entries = [] := by
  constructor
  · rfl
  · rfl

/-- C2 corrected: the retry loop shape (`maxRetries + 1` attempts with a
delay between them) is shared by the two wrappers, but the failure
bookkeeping is not identical: on exhaustion the per-entry extraction wrapper
appends exactly one FailureRecord for the entry URL and returns `{}`, while
the page-link harvesting wrapper returns an empty list and appends no
FailureRecord at all. -/
theorem C2_amended_retry_bookkeeping (env : Env) (u : String) (p mr : Nat)
    (rpp : Option Nat) (st : CrawlState) :
    ((∀ k, acceptCheck (env.extractResult u k) = false) →
      (retry_extract_description_data env u mr st).1 = [] ∧
      (retry_extract_description_data env u mr st).2.failed_entries =
        st.failed_entries ++ [⟨u, mr + 1⟩]) ∧
    ((∀ k, env.pageLinks p k = []) →
      (retry_get_entries_from_page env p mr st.htick).1 = [] ∧
      (scrapePage env mr rpp st p).failed_entries = st.failed_entries) := by
  constructor
  · intro hfail
    rw [retry_extract_allFail env u mr st hfail]
    exact ⟨rfl, rfl⟩
  · intro hempty
    have hh : retryHarvest env p (mr + 1) st.htick = ([], st.htick + (mr + 1)) :=
      retryHarvest_allEmpty env p hempty (mr + 1) st.htick
    constructor
    · show (retryHarvest env p (mr + 1) st.htick).1 = []
      rw [hh]
    · unfold scrapePage retry_get_entries_from_page
      rw [hh]
      show (processEntries env mr { st with htick := st.htick + (mr + 1) }
        (capUrls rpp [])).failed_entries = st.failed_entries
      rw [capUrls_nil]
      rfl

/-- C2 amended-claim witness: both behaviours at a concrete environment. -/
theorem C2_amended_retry_bookkeeping_witness :
    ((retry_extract_description_data envNull "y" 2 initState).1 = [] ∧
      (retry_extract_description_data envNull "y" 2 initState).2.failed_entries =
        initState.failed_entries ++ [⟨"y", 3⟩]) ∧
    ((retry_get_entries_from_page envNull 5 2 initState.htick).1 = [] ∧
      (scrapePage envNull 2 none initState 5).failed_entries =
        initState.failed_entries) :=
  ⟨(C2_amended_retry_bookkeeping envNull "y" 5 2 none initState).1 (fun _ => rfl),
   (C2_amended_retry_bookkeeping envNull "y" 5 2 none initState).2 (fun _ => rfl)⟩

/-! ## Failure/success mutual exclusivity -/

theorem processEntry_url_cases (env : Env) (mr : Nat) (st : CrawlState) (u : String) :
    ((processEntry env mr st u).all_data.map Entry.url = st.all_data.map Entry.url ++ [u] ∧
     (processEntry env mr st u).failed_entries.map FailureRecord.url =
       st.failed_entries.map FailureRecord.url) ∨
    ((processEntry env mr st u).all_data.map Entry.url = st.all_data.map Entry.url ∧
     (processEntry env mr st u).failed_entries.map FailureRecord.url =
       st.failed_entries.map FailureRecord.url ++ [u]) := by
  obtain ⟨_, hcase⟩ := processEntry_spec env mr st u
  rcases hcase with ⟨d, _, ha, _, hf⟩ | ⟨ha, _, hf⟩
  · exact Or.inl ⟨by rw [ha]; simp, by rw [hf]⟩
  · exact Or.inr ⟨by rw [ha], by rw [hf]; simp⟩

theorem processEntries_htick (env : Env) (mr : Nat) :
    ∀ (urls : List String) (st : CrawlState),
      (processEntries env mr st urls).htick = st.htick := by
  intro urls
  induction urls with
  | nil => intro st; rfl
  | cons u us ih =>
    intro st
    have h := (processEntry_spec env mr st u).1
    calc (processEntries env mr st (u :: us)).htick
        = (processEntries env mr (processEntry env mr st u) us).htick := rfl
      _ = (processEntry env mr st u).htick := ih _
      _ = st.htick := h

theorem processEntries_url_subset (env : Env) (mr : Nat) :
    ∀ (urls : List String) (st : CrawlState),
      (∀ x, x ∈ (processEntries env mr st urls).all_data.map Entry.url →
        x ∈ st.all_data.map Entry.url ∨ x ∈ urls) ∧
      (∀ x, x ∈ (processEntries env mr st urls).failed_entries.map FailureRecord.url →
        x ∈ st.failed_entries.map FailureRecord.url ∨ x ∈ urls) := by
  intro urls
  induction urls with
  | nil => intro st; exact ⟨fun x hx => Or.inl hx, fun x hx => Or.inl hx⟩
  | cons u us ih =>
    intro st
    have hstep : processEntries env mr st (u :: us) =
        processEntries env mr (processEntry env mr st u) us := rfl
    rw [hstep]
    obtain ⟨iha, ihf⟩ := ih (processEntry env mr st u)
    rcases processEntry_url_cases env mr st u with ⟨ha, hf⟩ | ⟨ha, hf⟩
    · constructor
      · intro x hx
        rcases iha x hx with hmem | hmem
        · rw [ha] at hmem
          rcases List.mem_append.mp hmem with h1 | h1
          · exact Or.inl h1
          · exact Or.inr (by simpa using Or.inl (List.mem_singleton.mp h1))
        · exact Or.inr (List.mem_cons_of_mem u hmem)
      · intro x hx
        rcases ihf x hx with hmem | hmem
        · rw [hf] at hmem
          exact Or.inl hmem
        · exact Or.inr (List.mem_cons_of_mem u hmem)
    · constructor
      · intro x hx
        rcases iha x hx with hmem | hmem
        · rw [ha] at hmem
          exact Or.inl hmem
        · exact Or.inr (List.mem_cons_of_mem u hmem)
      · intro x hx
        rcases ihf x hx with hmem | hmem
        · rw [hf] at hmem
          rcases List.mem_append.mp hmem with h1 | h1
          · exact Or.inl h1
          · exact Or.inr (by simpa using Or.inl (List.mem_singleton.mp h1))
        · exact Or.inr (List.mem_cons_of_mem u hmem)

theorem processEntries_disjoint (env : Env) (mr : Nat) :
    ∀ (urls : List String) (st : CrawlState),
      urls.Nodup →
      (∀ v ∈ urls, v ∉ st.all_data.map Entry.url ∧
        v ∉ st.failed_entries.map FailureRecord.url) →
      (∀ x, x ∈ st.all_data.map Entry.url →
        x ∉ st.failed_entries.map FailureRecord.url) →
      ∀ x, x ∈ (processEntries env mr st urls).all_data.map Entry.url →
        x ∉ (processEntries env mr st urls).failed_entries.map FailureRecord.url := by
  intro urls
  induction urls with
  | nil => intro st _ _ hdisj; exact hdisj
  | cons u us ih =>
    intro st hnodup hfresh hdisj
    have hstep : processEntries env mr st (u :: us) =
        processEntries env mr (processEntry env mr st u) us := rfl
    rw [hstep]
    obtain ⟨hu1, hu2⟩ := hfresh u (List.mem_cons_self u us)
    have hnodup1 : us.Nodup := (List.nodup_cons.mp hnodup).2
    have hune : u ∉ us := (List.nodup_cons.mp hnodup).1
    rcases processEntry_url_cases env mr st u with ⟨ha, hf⟩ | ⟨ha, hf⟩
    · refine ih (processEntry env mr st u) hnodup1 ?_ ?_
      · intro v hv
        obtain ⟨hv1, hv2⟩ := hfresh v (List.mem_cons_of_mem u hv)
        have hvu : v ≠ u := fun h => hune (h ▸ hv)
        constructor
        · rw [ha]
          intro hmem
          rcases List.mem_append.mp hmem with h1 | h1
          · exact hv1 h1
          · exact hvu (List.mem_singleton.mp h1)
        · rw [hf]
          exact hv2
      · intro x hx
        rw [ha] at hx
        rw [hf]
        rcases List.mem_append.mp hx with h1 | h1
        · exact hdisj x h1
        · rw [List.mem_singleton.mp h1]
          exact hu2
    · refine ih (processEntry env mr st u) hnodup1 ?_ ?_
      · intro v hv
        obtain ⟨hv1, hv2⟩ := hfresh v (List.mem_cons_of_mem u hv)
        have hvu : v ≠ u := fun h => hune (h ▸ hv)
        constructor
        · rw [ha]
          exact hv1
        · rw [hf]
          intro hmem
          rcases List.mem_append.mp hmem with h1 | h1
          · exact hv2 h1
          · exact hvu (List.mem_singleton.mp h1)
      · intro x hx
        rw [ha] at hx
        rw [hf]
        intro hmem
        rcases List.mem_append.mp hmem with h1 | h1
        · exact hdisj x hx h1
        · exact hu1 (List.mem_singleton.mp h1 ▸ hx)

theorem scrapeFold_disjoint (env : Env) (mr : Nat) (rpp : Option Nat) :
    ∀ (pages : List Nat) (st : CrawlState),
      (runUrls env mr rpp pages st.htick).Nodup →
      (∀ v ∈ runUrls env mr rpp pages st.htick,
        v ∉ st.all_data.map Entry.url ∧ v ∉ st.failed_entries.map FailureRecord.url) →
      (∀ x, x ∈ st.all_data.map Entry.url →
        x ∉ st.failed_entries.map FailureRecord.url) →
      ∀ x, x ∈ (pages.foldl (scrapePage env mr rpp) st).all_data.map Entry.url →
        x ∉ (pages.foldl (scrapePage env mr rpp) st).failed_entries.map
          FailureRecord.url := by
  intro pages
  induction pages with
  | nil => intro st _ _ hdisj; exact hdisj
  | cons p ps ih =>
    intro st hnodup hfresh hdisj
    cases hh : retry_get_entries_from_page env p mr st.htick with
    | mk links t2 =>
      have hrun : runUrls env mr rpp (p :: ps) st.htick =
          capUrls rpp links ++ runUrls env mr rpp ps t2 := by
        rw [runUrls, hh]
      have hpage : scrapePage env mr rpp st p =
          processEntries env mr { st with htick := t2 } (capUrls rpp links) := by
        unfold scrapePage
        rw [hh]
      rw [hrun] at hnodup hfresh
      rw [List.nodup_append] at hnodup
      obtain ⟨hn1, hn2, hd12⟩ := hnodup
      have hfold : (p :: ps).foldl (scrapePage env mr rpp) st =
          ps.foldl (scrapePage env mr rpp) (scrapePage env mr rpp st p) := rfl
      rw [hfold, hpage]
      have hht : (processEntries env mr { st with htick := t2 }
          (capUrls rpp links)).htick = t2 :=
        processEntries_htick env mr (capUrls rpp links) { st with htick := t2 }
      have hA : ∀ x, x ∈ (processEntries env mr { st with htick := t2 }
            (capUrls rpp links)).all_data.map Entry.url →
          x ∈ st.all_data.map Entry.url ∨ x ∈ capUrls rpp links :=
        (processEntries_url_subset env mr (capUrls rpp links) { st with htick := t2 }).1
      have hF : ∀ x, x ∈ (processEntries env mr { st with htick := t2 }
            (capUrls rpp links)).failed_entries.map FailureRecord.url →
          x ∈ st.failed_entries.map FailureRecord.url ∨ x ∈ capUrls rpp links :=
        (processEntries_url_subset env mr (capUrls rpp links) { st with htick := t2 }).2
      have hd1 : ∀ x, x ∈ (processEntries env mr { st with htick := t2 }
            (capUrls rpp links)).all_data.map Entry.url →
          x ∉ (processEntries env mr { st with htick := t2 }
            (capUrls rpp links)).failed_entries.map FailureRecord.url := by
        refine processEntries_disjoint env mr (capUrls rpp links)
          { st with htick := t2 } hn1 ?_ hdisj
        intro v hv
        exact hfresh v (List.mem_append_left _ hv)
      refine ih (processEntries env mr { st with htick := t2 } (capUrls rpp links))
        ?_ ?_ hd1
      · rw [hht]
        exact hn2
      · rw [hht]
        intro v hv
        obtain ⟨hv1, hv2⟩ := hfresh v (List.mem_append_right _ hv)
        have hvnl : v ∉ capUrls rpp links := fun hmem => hd12 hmem hv
        constructor
        · intro hmem
          rcases hA v hmem with h1 | h1
          · exact hv1 h1
          · exact hvnl h1
        · intro hmem
          rcases hF v hmem with h1 | h1
          · exact hv2 h1
          · exact hvnl h1

/-- The environment of the C4 counterexample: every harvest of every page
yields the single URL `"u"`, whose extraction fails on the very first
attempt of the run and succeeds on every later one (each attempt is a fresh
network fetch, so outcomes may differ between the two wrapper
invocations). -/
def envDup : Env :=
  ⟨fun _ _ => ["u"],
   fun _ k => if k == 0 then [] else [("Title", "T"), ("Creator", "C")]⟩

/-- C4 counterexample: scraping pages 1-2 with `maxRetries = 0` under
`envDup` harvests the same URL from both pages; the first invocation
exhausts retries (one FailureRecord for `"u"`), the second succeeds (one
accepted EntryRecord extracted from `"u"`), so the same URL occurs in the
failure list and as the source of an accepted record — refuting mutual
exclusivity for URLs harvested from more than one page. -/
theorem C4_cex_url_in_both_lists :
    (scrape_multiple_pages envDup 0 none 1 2 initState).failed_entries.map
      FailureRecord.url = ["u"] ∧
    (scrape_multiple_pages envDup 0 none 1 2 initState).all_data.map
      Entry.url = ["u"] := by
  constructor
  · rfl
  · rfl

/-- C4 corrected: the two outcomes are mutually exclusive for every run in
which the URL sequence submitted to extraction (pages in order, harvested
links deduplicated per page and capped) contains no duplicate across the
whole range — the per-page deduplication does not span pages, so a URL
harvested from more than one page is extracted once per page and can land
in both lists, as the counterexample shows. -/
theorem C4_amended_disjoint_when_nodup (env : Env) (mr : Nat) (rpp : Option Nat)
    (sp ep : Nat) (hnodup : (runUrls env mr rpp (pageRange sp ep) 0).Nodup) :
    ∀ x, ¬ (x ∈ (scrape_multiple_pages env mr rpp sp ep initState).failed_entries.map
          FailureRecord.url ∧
        x ∈ (scrape_multiple_pages env mr rpp sp ep initState).all_data.map
          Entry.url) := by
  rintro x ⟨hxF, hxA⟩
  refine scrapeFold_disjoint env mr rpp (pageRange sp ep) initState hnodup ?_ ?_ x hxA hxF
  · intro v hv
    constructor
    · simp [initState]
    · simp [initState]
  · intro y hy
    simp [initState] at hy

/-- The environment of the C4 witness: page 1 yields URL `"a"` (which
extracts successfully), page 2 yields URL `"b"` (which always fails). -/
def envTwo : Env :=
  ⟨fun p _ => if p == 1 then ["a"] else ["b"],
   fun u _ => if u == "a" then [("Title", "T"), ("Creator", "C")] else []⟩

/-- C4 amended-claim witness: a concrete duplicate-free run in which the
failed URL `"b"` indeed appears in no accepted record. -/
theorem C4_amended_disjoint_witness :
    (runUrls envTwo 0 none (pageRange 1 2) 0).Nodup ∧
    ¬ ("b" ∈ (scrape_multiple_pages envTwo 0 none 1 2 initState).failed_entries.map
          FailureRecord.url ∧
       "b" ∈ (scrape_multiple_pages envTwo 0 none 1 2 initState).all_data.map
          Entry.url) :=
  ⟨by decide, C4_amended_disjoint_when_nodup envTwo 0 none 1 2 (by decide) "b"⟩

/-! ## Pipeline-layer claims -/

theorem setField_length_ge (r : Record) (k v : String) :
    r.length ≤ (setField r k v).length := by
  unfold setField
  split
  · simp
  · simp

theorem mergeImage_length_ge (r : Record) (p : PageModel) :
    r.length ≤ (mergeImage r p).length := by
  unfold mergeImage
  cases extract_image_url p.imageCands with
  | some u => exact setField_length_ge r "Image URL" u
  | none => exact Nat.le_refl _

/-- C7: An extraction result is accepted by the caller if and only if its
field count is at least 2, where an "Image URL" field alone does not count
toward acceptance: a result that is empty or contains only the "Image URL"
field fails the check `if data and len(data) > 1` and so is treated as a
failed attempt, triggering retry/failure bookkeeping. -/
theorem C7_acceptance_threshold (d : Record) (v : String) :
    (acceptCheck d = true ↔ 2 ≤ d.length) ∧
    acceptCheck [] = false ∧
    acceptCheck [("Image URL", v)] = false :=
  ⟨acceptCheck_iff d, rfl, rfl⟩

/-- C8: For every page-source input, the structured-state extractor is
total and never raises (the Lean embedding is a total function; the
`try/except` at `scraper.py:165` absorbs every parse error): if the
embedded JSON blob is absent or malformed (`initialState = none`), it
returns the empty mapping `{}`, and on a loaded page the pipeline proceeds
to the fallback strategies — the section heuristic is invoked and the
fallback record is returned — rather than aborting the URL or the run. -/
theorem C8_malformed_state_empty (p : PageModel) (hmiss : p.initialState = none) :
    extract_initial_state p = PyVal.vdict [] ∧
    (p.loads = true →
      Strategy.sectionHeuristic ∈ (extract_description_data p).2 ∧
      (extract_description_data p).1 = fallbackRecord p) := by
  have he : extract_initial_state p = PyVal.vdict [] := by
    unfold extract_initial_state
    rw [hmiss]
  refine ⟨he, fun hl => ?_⟩
  have hpar : parentOfState (extract_initial_state p) = none := by
    rw [he]
    rfl
  have heq : extract_description_data p =
      (fallbackRecord p, Strategy.structuredState :: fallbackLog p) := by
    unfold extract_description_data
    rw [hl, hpar]
    rfl
  rw [heq]
  exact ⟨by simp [fallbackLog], rfl⟩

/-- A c8-witness fixture: a loaded page with no parsable embedded state. -/
def pageNoState : PageModel :=
  ⟨true, none, [("Title", "X")], none, [], [], []⟩

/-- C8 witness at the fixture page. -/
theorem C8_malformed_state_empty_witness :
    extract_initial_state pageNoState = PyVal.vdict [] ∧
    (pageNoState.loads = true →
      Strategy.sectionHeuristic ∈ (extract_description_data pageNoState).2 ∧
      (extract_description_data pageNoState).1 = fallbackRecord pageNoState) :=
  C8_malformed_state_empty pageNoState rfl

/-- C6: For every detail page whose embedded structured state parses
cleanly (the `item` → `item` → `parent` path exists) into at least 2
canonical fields, the pipeline's output equals exactly the mapping obtained
from the structured state — raw field codes mapped through `canonicalKey`,
unrecognized codes passed through verbatim (both inside `fieldsRecord`) —
plus the image resolver's result, and no heuristic fallback strategy
(section-heuristic, pattern-match, generic-DOM) is invoked. -/
theorem C6_structured_state_exact (p : PageModel) (parent : PyVal)
    (hl : p.loads = true)
    (hpar : parentOfState (extract_initial_state p) = some parent)
    (hcnt : 2 ≤ (fieldsRecord parent).length) :
    (extract_description_data p).1 = mergeImage (fieldsRecord parent) p ∧
    (extract_description_data p).2 = [Strategy.structuredState, Strategy.imageResolver] ∧
    Strategy.sectionHeuristic ∉ (extract_description_data p).2 ∧
    Strategy.patternMatch ∉ (extract_description_data p).2 ∧
    Strategy.genericDOM ∉ (extract_description_data p).2 := by
  have hlen : 2 ≤ (mergeImage (fieldsRecord parent) p).length :=
    le_trans hcnt (mergeImage_length_ge (fieldsRecord parent) p)
  have hacc : acceptCheck (mergeImage (fieldsRecord parent) p) = true :=
    (acceptCheck_iff _).mpr hlen
  have heq : extract_description_data p =
      (mergeImage (fieldsRecord parent) p,
       [Strategy.structuredState, Strategy.imageResolver]) := by
    unfold extract_description_data
    rw [hl, hpar]
    simp only [if_true, hacc]
  rw [heq]
  exact ⟨rfl, rfl, by simp, by simp, by simp⟩

/-- A c6-witness fixture: structured state with two recognized field codes
and one valid image candidate. -/
def pageStruct : PageModel :=
  ⟨true,
   some (PyVal.vdict [("item", PyVal.vdict [("item", PyVal.vdict [("parent",
     PyVal.vdict [("fields", PyVal.vlist [
       PyVal.vdict [("key", PyVal.vstr "title"), ("value", PyVal.vstr "A")],
       PyVal.vdict [("key", PyVal.vstr "creato"), ("value", PyVal.vstr "B")]])])])])]),
   [], none, [], [], ["https://site/img.jpg"]⟩

/-- The parent node embedded in `pageStruct`. -/
def parentStruct : PyVal :=
  PyVal.vdict [("fields", PyVal.vlist [
    PyVal.vdict [("key", PyVal.vstr "title"), ("value", PyVal.vstr "A")],
    PyVal.vdict [("key", PyVal.vstr "creato"), ("value", PyVal.vstr "B")]])]

/-- C6 witness at the fixture page. -/
theorem C6_structured_state_exact_witness :
    (extract_description_data pageStruct).1 =
      mergeImage (fieldsRecord parentStruct) pageStruct ∧
    (extract_description_data pageStruct).2 =
      [Strategy.structuredState, Strategy.imageResolver] ∧
    Strategy.sectionHeuristic ∉ (extract_description_data pageStruct).2 ∧
    Strategy.patternMatch ∉ (extract_description_data pageStruct).2 ∧
    Strategy.genericDOM ∉ (extract_description_data pageStruct).2 :=
  C6_structured_state_exact pageStruct parentStruct rfl rfl (by decide)

/-- A c5-counterexample fixture: no embedded state, a section-heuristic
parse yielding exactly 2 fields, and a pattern-match candidate. -/
def pageTwoFields : PageModel :=
  ⟨true, none, [("Title (English)", "X"), ("Creator", "Y")], none,
   [("Date", "1930")], [], []⟩

/-- C5 counterexample: on `pageTwoFields` the cumulative merged record
after the section-heuristic strategy already has 2 fields — the claimed
acceptance threshold `fieldCount >= 2` — yet the pipeline still invokes the
pattern-match strategy, because the fall-through gates at
`scraper.py:556` and `scraper.py:600` test `len(record) < 3`, not the
acceptance threshold. -/
theorem C5_cex_strategy_runs_past_threshold :
    (rec2 pageTwoFields).length = 2 ∧
    Strategy.patternMatch ∈ (extract_description_data pageTwoFields).2 := by
  constructor
  · rfl
  · decide

/-- C5 corrected: on a loaded page the pipeline attempts the structured
state first and, when that strategy's record merged with the image result
passes the acceptance check, returns at once without any heuristic;
otherwise the section heuristic always runs, while the pattern-match and
generic-DOM strategies are invoked exactly when the cumulative record so
far has fewer than 3 fields (not the acceptance threshold of 2); the image
resolver always runs and its result is merged. -/
theorem C5_amended_strategy_gating (p : PageModel) (hl : p.loads = true) :
    Strategy.imageResolver ∈ (extract_description_data p).2 ∧
    (Strategy.sectionHeuristic ∈ (extract_description_data p).2 ↔
      ¬ ∃ parent, parentOfState (extract_initial_state p) = some parent ∧
        acceptCheck (mergeImage (fieldsRecord parent) p) = true) ∧
    (Strategy.patternMatch ∈ (extract_description_data p).2 ↔
      Strategy.sectionHeuristic ∈ (extract_description_data p).2 ∧
        (rec2 p).length < 3) ∧
    (Strategy.genericDOM ∈ (extract_description_data p).2 ↔
      Strategy.sectionHeuristic ∈ (extract_description_data p).2 ∧
        (rec3 p).length < 3) := by
  cases hp : parentOfState (extract_initial_state p) with
  | some parent =>
    cases hacc : acceptCheck (mergeImage (fieldsRecord parent) p) with
    | true =>
      have heq : extract_description_data p =
          (mergeImage (fieldsRecord parent) p,
           [Strategy.structuredState, Strategy.imageResolver]) := by
        unfold extract_description_data
        rw [hl, hp]
        simp only [if_true, hacc]
      rw [heq]
      refine ⟨by simp, ?_, ?_, ?_⟩
      · refine iff_of_false (by simp) ?_
        intro hno
        exact hno ⟨parent, rfl, hacc⟩
      · exact iff_of_false (by simp) (fun h => by simp at h)
      · exact iff_of_false (by simp) (fun h => by simp at h)
    | false =>
      have heq : extract_description_data p =
          (fallbackRecord p,
           Strategy.structuredState :: Strategy.imageResolver :: fallbackLog p) := by
        unfold extract_description_data
        rw [hl, hp]
        simp only [if_true, hacc]
        rfl
      rw [heq]
      have hsec : Strategy.sectionHeuristic ∈
          (fallbackRecord p,
           Strategy.structuredState :: Strategy.imageResolver :: fallbackLog p).2 := by
        simp [fallbackLog]
      refine ⟨by simp [fallbackLog], ?_, ?_, ?_⟩
      · refine iff_of_true hsec ?_
        rintro ⟨parent2, hp2, hacc2⟩
        obtain rfl := Option.some.inj hp2
        rw [hacc] at hacc2
        exact Bool.false_ne_true hacc2
      · by_cases h2 : (rec2 p).length < 3
        · exact iff_of_true (by simp [fallbackLog, h2]) ⟨hsec, h2⟩
        · refine iff_of_false (by simp [fallbackLog, h2]) (fun h => h2 h.2)
      · by_cases h3 : (rec3 p).length < 3
        · exact iff_of_true (by simp [fallbackLog, h3]) ⟨hsec, h3⟩
        · refine iff_of_false (by simp [fallbackLog, h3]) (fun h => h3 h.2)
  | none =>
    have heq : extract_description_data p =
        (fallbackRecord p, Strategy.structuredState :: fallbackLog p) := by
      unfold extract_description_data
      rw [hl, hp]
      rfl
    rw [heq]
    have hsec : Strategy.sectionHeuristic ∈
        (fallbackRecord p, Strategy.structuredState :: fallbackLog p).2 := by
      simp [fallbackLog]
    refine ⟨by simp [fallbackLog], ?_, ?_, ?_⟩
    · refine iff_of_true hsec ?_
      rintro ⟨parent2, hp2, _⟩
      exact Option.noConfusion hp2
    · by_cases h2 : (rec2 p).length < 3
      · exact iff_of_true (by simp [fallbackLog, h2]) ⟨hsec, h2⟩
      · refine iff_of_false (by simp [fallbackLog, h2]) (fun h => h2 h.2)
    · by_cases h3 : (rec3 p).length < 3
      · exact iff_of_true (by simp [fallbackLog, h3]) ⟨hsec, h3⟩
      · refine iff_of_false (by simp [fallbackLog, h3]) (fun h => h3 h.2)

/-- C5 amended-claim witness at the counterexample fixture page. -/
theorem C5_amended_strategy_gating_witness :
    Strategy.imageResolver ∈ (extract_description_data pageTwoFields).2 ∧
    (Strategy.sectionHeuristic ∈ (extract_description_data pageTwoFields).2 ↔
      ¬ ∃ parent, parentOfState (extract_initial_state pageTwoFields) = some parent ∧
        acceptCheck (mergeImage (fieldsRecord parent) pageTwoFields) = true) ∧
    (Strategy.patternMatch ∈ (extract_description_data pageTwoFields).2 ↔
      Strategy.sectionHeuristic ∈ (extract_description_data pageTwoFields).2 ∧
        (rec2 pageTwoFields).length < 3) ∧
    (Strategy.genericDOM ∈ (extract_description_data pageTwoFields).2 ↔
      Strategy.sectionHeuristic ∈ (extract_description_data pageTwoFields).2 ∧
        (rec3 pageTwoFields).length < 3) :=
  C5_amended_strategy_gating pageTwoFields rfl

/-- C9 counterexample: the skip list holds the underscore form `thumb_`,
not `thumbnail`, so a URL containing the decorative marker `thumbnail` is
not rejected — it carries the `.jpg` indicator and `is_valid_image_url`
accepts it, refuting the claim that any URL containing a thumbnail marker
is rejected. -/
theorem C9_cex_thumbnail_url_accepted :
    strContains (lowerStr "https://x/thumbnail.jpg") "thumbnail" = true ∧
    is_valid_image_url "https://x/thumbnail.jpg" = true := by
  constructor
  · decide
  · decide

/-- C9 corrected: the decorative-marker skip list is `logo, icon, favicon,
button, arrow, bg_, background, sprite, thumb_, avatar, profile` — with the
underscore form `thumb_` in place of the claimed `thumbnail` — and a URL
containing any of them (lowercased) is rejected; an accepted URL is
non-empty and contains an image-indicative substring or extension; the
resolver returns the first valid candidate, prefixed with the site base
exactly when it starts with `/`. -/
theorem C9_amended_image_validity (url : String) (cands : List String) :
    (url = "" → is_valid_image_url url = false) ∧
    (∀ pat, pat ∈ skip_patterns → strContains (lowerStr url) pat = true →
      is_valid_image_url url = false) ∧
    (is_valid_image_url url = true →
      (image_indicators.any fun ind => strContains (lowerStr url) ind) = true) ∧
    (∀ r, extract_image_url cands = some r →
      ∃ src, src ∈ cands ∧ is_valid_image_url src = true ∧
        ((startsWithSlash src = true ∧ r = BASE_URL ++ src) ∨
         (startsWithSlash src = false ∧ r = src))) := by
  refine ⟨?_, ?_, ?_, ?_⟩
  · intro h
    subst h
    rfl
  · intro pat hpat hcont
    have hany : (skip_patterns.any fun q => strContains (lowerStr url) q) = true :=
      List.any_eq_true.mpr ⟨pat, hpat, hcont⟩
    unfold is_valid_image_url
    split
    · rfl
    · simp [hany]
  · intro hvalid
    unfold is_valid_image_url at hvalid
    split at hvalid
    · exact absurd hvalid (by simp)
    · cases hskip : (skip_patterns.any fun q => strContains (lowerStr url) q) with
      | true => rw [hskip] at hvalid; simp at hvalid
      | false =>
        rw [hskip] at hvalid
        simpa using hvalid
  · intro r hr
    unfold extract_image_url at hr
    cases hf : cands.find? (fun s => is_valid_image_url s) with
    | none => rw [hf] at hr; simp at hr
    | some src =>
      rw [hf] at hr
      simp at hr
      refine ⟨src, List.mem_of_find?_eq_some hf, List.find?_some hf, ?_⟩
      cases hsw : startsWithSlash src with
      | true =>
        refine Or.inl ⟨rfl, ?_⟩
        rw [← hr]
        unfold resolveSrc
        rw [hsw]
        rfl
      | false =>
        refine Or.inr ⟨rfl, ?_⟩
        rw [← hr]
        unfold resolveSrc
        rw [hsw]
        rfl

/-- C9 amended-claim witness: a marker-bearing URL is rejected, and on a
concrete candidate list the resolver returns the first valid candidate
resolved against the base URL. -/
theorem C9_amended_image_validity_witness :
    is_valid_image_url "https://x/logo.png" = false ∧
    (∃ src, src ∈ ["/iiif/a.jpg"] ∧ is_valid_image_url src = true ∧
      ((startsWithSlash src = true ∧
        BASE_URL ++ "/iiif/a.jpg" = BASE_URL ++ src) ∨
       (startsWithSlash src = false ∧ BASE_URL ++ "/iiif/a.jpg" = src))) :=
  ⟨(C9_amended_image_validity "https://x/logo.png" []).2.1 "logo" (by decide) (by decide),
   (C9_amended_image_validity "x" ["/iiif/a.jpg"]).2.2.2
     (BASE_URL ++ "/iiif/a.jpg") (by decide)⟩

/-- C7 witness: the acceptance check at concrete records — a two-field
record is accepted, the empty record and the image-only record are not. -/
theorem C7_acceptance_threshold_witness :
    acceptCheck [("Title", "A"), ("Creator", "B")] = true ∧
    acceptCheck [] = false ∧
    acceptCheck [("Image URL", "v")] = false :=
  ⟨(C7_acceptance_threshold [("Title", "A"), ("Creator", "B")] "v").1.mpr (by decide),
   (C7_acceptance_threshold [("Title", "A"), ("Creator", "B")] "v").2.1,
   (C7_acceptance_threshold [("Title", "A"), ("Creator", "B")] "v").2.2⟩
